import Mathlib

/-
Verification of the retrying, caching element-resolution layer of the
AppAutomation repository (src/android/pages/demoPage.js).

The JavaScript class `DemoPage` wraps a remote WebDriver session.  We embed
its observable behaviour shallowly:

* the remote session (driver.$ + waitForDisplayed) is an oracle
  `beh : Nat → Nat → Except String Elem` giving the outcome of the k-th
  location attempt when run with a given effective timeout;
* the mutable fields of the page object (`elementCache`,
  `performanceMetrics`, `readingListName`) become an explicit `PageState`;
* every externally observable action (network location attempt, sleep,
  screenshot, cache write, element interaction) is logged as an `Event`;
* thrown JS errors become `Except.error` carrying the message string.

`findElement`, `findElementsParallel`, `smartWait`, `clearCache`,
`enterLanguageInSearchBox` and `enterReadingListName` are translated
line by line from the source.  `findElementsParallel` fires independent
`findElement` calls whose effects on distinct cache keys commute; the
embedding serialises the batch in input order, which is observationally
equivalent for the properties below (Promise.all preserves input order of
results and rejects with the failing promise's error).
-/

namespace AppAutomation

/-- A resolved remote-element handle, abstracted to a numeric id. -/
structure Elem where
  id : Nat
deriving DecidableEq, Repr

/-- Observable external effects of the page object. -/
inductive Event where
  | lookup (attempt : Nat) (timeout : Nat)
  | sleep (ms : Nat)
  | screenshot
  | cacheWrite (key : String)
  | clearValue
  | setValue (s : String)
  | getText
deriving DecidableEq, Repr

/-- The mutable state of a `DemoPage` instance: the element cache
(association list standing for the JS `Map`, most recent entry first),
the performance counters, and the stored reading-list name. -/
structure PageState where
  elementCache : List (String × Elem)
  elementLookups : Nat
  cacheHits : Nat
  totalWaitTime : Nat
  readingListName : Option String
deriving DecidableEq, Repr

/-- A freshly constructed page: empty cache, zeroed counters. -/
def PageState.init : PageState :=
  { elementCache := [], elementLookups := 0, cacheHits := 0,
    totalWaitTime := 0, readingListName := none }

/-- `this.timeouts.elementWait` (demoPage.js line 57). -/
def timeoutsElementWait : Nat := 15000

/-- `this.timeouts.retryAttempts` (demoPage.js line 59). -/
def timeoutsRetryAttempts : Nat := 3

/-- `this.timeouts.retryDelay` (demoPage.js line 60). -/
def timeoutsRetryDelay : Nat := 1000

/-- The cache key built in `findElement`: the template literal
`${selector}_${description}`. -/
def cacheKey (selector description : String) : String :=
  selector ++ "_" ++ description

/-- `timeout || this.timeouts.elementWait`: a JS-falsy timeout argument
(null, i.e. `none`, or the number 0) falls back to the default. -/
def actualTimeoutOf (timeout : Option Nat) : Nat :=
  match timeout with
  | none => timeoutsElementWait
  | some t => if t = 0 then timeoutsElementWait else t

/-- The `for (let attempt = 1; attempt <= retryAttempts; attempt++)` loop of
`findElement`.  `beh attempt T` is the combined outcome of
`driver.$(selector)` followed by `element.waitForDisplayed({timeout: T})` on
that attempt.  On success the element is cached and `totalWaitTime` grows by
the externally measured duration `dur`; on the final failed attempt a
screenshot is taken and the typed resolution failure is thrown; otherwise the
driver pauses for the constant `retryDelay` and the loop continues.  The last
argument is fuel, bounding the remaining iterations; the loop always returns
or throws within `retryAttempts` iterations, so the fuel-0 branch (the JS
loop falling through, returning undefined) is unreachable from
`findElement`. -/
def findLoop (beh : Nat → Nat → Except String Elem) (description key : String)
    (actualTimeout dur : Nat) (st : PageState) :
    Nat → Nat → Except String Elem × PageState × List Event
  | _, 0 => (Except.error "loop exited without return", st, [])
  | attempt, fuel+1 =>
    match beh attempt actualTimeout with
    | Except.ok e =>
        (Except.ok e,
         { st with
             elementCache := (key, e) :: st.elementCache,
             totalWaitTime := st.totalWaitTime + dur },
         [Event.lookup attempt actualTimeout, Event.cacheWrite key])
    | Except.error msg =>
        if attempt = timeoutsRetryAttempts then
          (Except.error ("Failed to locate " ++ description ++ " after "
              ++ toString timeoutsRetryAttempts ++ " attempts: " ++ msg),
           st,
           [Event.lookup attempt actualTimeout, Event.screenshot])
        else
          let rest := findLoop beh description key actualTimeout dur st
            (attempt + 1) fuel
          (rest.1, rest.2.1,
           Event.lookup attempt actualTimeout
             :: Event.sleep timeoutsRetryDelay :: rest.2.2)

/-- `DemoPage.findElement(selector, description, timeout = null)`
(demoPage.js lines 68-124): bump the lookup counter, consult the cache by
exact key, on a hit bump the hit counter and return the cached handle with
no external effect; on a miss run the retry loop. -/
def findElement (beh : Nat → Nat → Except String Elem)
    (selector description : String) (timeout : Option Nat) (dur : Nat)
    (st : PageState) : Except String Elem × PageState × List Event :=
  let key := cacheKey selector description
  let st1 := { st with elementLookups := st.elementLookups + 1 }
  match st1.elementCache.lookup key with
  | some e => (Except.ok e, { st1 with cacheHits := st1.cacheHits + 1 }, [])
  | none =>
      findLoop beh description key (actualTimeoutOf timeout) dur st1 1
        timeoutsRetryAttempts

/-- `DemoPage.clearCache()` (demoPage.js lines 208-212). -/
def clearCache (st : PageState) : PageState :=
  { st with elementCache := [] }

/-- One entry of the `elementConfigs` array handed to
`findElementsParallel`, together with the oracle and measured duration of
its resolution. -/
structure ElementConfig where
  beh : Nat → Nat → Except String Elem
  selector : String
  description : String
  timeout : Option Nat
  dur : Nat

/-- The individual promises of `findElementsParallel`: each config's
`findElement` call runs to completion independently, so every call's cache
writes and events happen regardless of sibling failures.  Distinct cache
keys make the calls commute, so they are serialised in input order. -/
def runBatch : List ElementConfig → PageState →
    List (Except String Elem) × PageState × List Event
  | [], st => ([], st, [])
  | c :: cs, st =>
    let r := findElement c.beh c.selector c.description c.timeout c.dur st
    let rest := runBatch cs r.2.1
    (r.1 :: rest.1, rest.2.1, r.2.2 ++ rest.2.2)

/-- `Promise.all` joining: all fulfilled means the ordered value list,
any rejection means the batch rejects with that error. -/
def collectResults : List (Except String Elem) → Except String (List Elem)
  | [] => Except.ok []
  | Except.ok e :: rs =>
      match collectResults rs with
      | Except.ok es => Except.ok (e :: es)
      | Except.error m => Except.error m
  | Except.error m :: _ => Except.error m

/-- `DemoPage.findElementsParallel(elementConfigs)`
(demoPage.js lines 163-176). -/
def findElementsParallel (cfgs : List ElementConfig) (st : PageState) :
    Except String (List Elem) × PageState × List Event :=
  let r := runBatch cfgs st
  (collectResults r.1, r.2.1, r.2.2)

/-- The `for` loop of `smartWait`.  `cond attempt` is the outcome of
`await condition()` on that attempt (`Except.error` if it threw); `truthy`
decides the JS truthiness of a returned value.  A truthy result returns
immediately; an error on the final attempt is rethrown from the catch
block; in every other case (error swallowed, or falsy result, including a
falsy result on the final attempt) the driver pauses for `delay` and the
delay doubles.  Fuel counts the remaining iterations; exhausted fuel is the
loop exiting and throwing the generic condition-timeout error. -/
def smartWaitLoop {α : Type} (truthy : α → Bool) (cond : Nat → Except String α)
    (maxAttempts : Nat) : Nat → Nat → Nat → Except String α × List Event
  | _, _, 0 =>
      (Except.error ("Condition not met after " ++ toString maxAttempts
        ++ " attempts"), [])
  | attempt, delay, fuel+1 =>
    match cond attempt with
    | Except.ok r =>
        if truthy r then (Except.ok r, [])
        else
          let rest := smartWaitLoop truthy cond maxAttempts (attempt + 1)
            (delay * 2) fuel
          (rest.1, Event.sleep delay :: rest.2)
    | Except.error msg =>
        if attempt = maxAttempts then (Except.error msg, [])
        else
          let rest := smartWaitLoop truthy cond maxAttempts (attempt + 1)
            (delay * 2) fuel
          (rest.1, Event.sleep delay :: rest.2)

/-- `DemoPage.smartWait(condition, maxAttempts = 5, initialDelay = 500)`
(demoPage.js lines 181-203). -/
def smartWait {α : Type} (truthy : α → Bool) (cond : Nat → Except String α)
    (maxAttempts initialDelay : Nat) : Except String α × List Event :=
  smartWaitLoop truthy cond maxAttempts 1 initialDelay maxAttempts

/-- Default `maxAttempts` of `smartWait`. -/
def smartWaitDefaultAttempts : Nat := 5

/-- Default `initialDelay` of `smartWait`. -/
def smartWaitDefaultDelay : Nat := 500

/-- A JavaScript argument as the text-input helpers see it: either a string
or a non-string value (whose truthiness is irrelevant to the guard, since a
non-string fails `typeof language !== "string"` when truthy and
`!language` when falsy). -/
inductive JSArg where
  | str (s : String)
  | nonString
deriving DecidableEq, Repr

/-- The guard `!x || typeof x !== "string" || x.trim().length === 0`
shared by `enterLanguageInSearchBox` and `enterReadingListName`: an empty
string is falsy, a whitespace-only string trims to empty, and any
non-string fails one of the first two tests. -/
def invalidTextInput : JSArg → Bool
  | JSArg.str s => s.isEmpty || s.trim.isEmpty
  | JSArg.nonString => true

/-- Outcomes of the remote interactions performed on a resolved element by
the text-input helpers (`clearValue`, `setValue`, `getText`). -/
structure ElemOps where
  clearValue : Except String Unit
  setValue : String → Except String Unit
  getText : Except String String

/-- JS `String.prototype.includes`. -/
def containsSub (hay needle : String) : Bool :=
  decide (List.IsInfix needle.data hay.data)

/-- `this.locators.searchBox` (demoPage.js line 27). -/
def searchBoxLocator : String :=
  "id:org.wikipedia.alpha:id/preference_languages_filter"

/-- `this.locators.readingListNameInput` (demoPage.js line 47). -/
def readingListNameLocator : String := "id:org.wikipedia.alpha:id/text_input"

/-- `DemoPage.enterLanguageInSearchBox(language)` (demoPage.js lines
286-307): validate the argument before any remote call, then resolve the
search box, clear it, type the trimmed text and read it back, failing if
the read-back does not contain the typed text.  Errors thrown inside the
`try` block are logged and rethrown unchanged. -/
def enterLanguageInSearchBox (beh : Nat → Nat → Except String Elem)
    (ops : ElemOps) (language : JSArg) (dur : Nat) (st : PageState) :
    Except String Unit × PageState × List Event :=
  if invalidTextInput language then
    (Except.error "Invalid language parameter: must be a non-empty string",
     st, [])
  else
    match language with
    | JSArg.nonString =>
        (Except.error "Invalid language parameter: must be a non-empty string",
         st, [])
    | JSArg.str s =>
      let r := findElement beh searchBoxLocator "Language Search Box" none
        dur st
      match r.1 with
      | Except.error m => (Except.error m, r.2.1, r.2.2)
      | Except.ok _ =>
        match ops.clearValue with
        | Except.error m =>
            (Except.error m, r.2.1, r.2.2 ++ [Event.clearValue])
        | Except.ok _ =>
          match ops.setValue s.trim with
          | Except.error m =>
              (Except.error m, r.2.1,
               r.2.2 ++ [Event.clearValue, Event.setValue s.trim])
          | Except.ok _ =>
            match ops.getText with
            | Except.error m =>
                (Except.error m, r.2.1,
                 r.2.2 ++ [Event.clearValue, Event.setValue s.trim,
                           Event.getText])
            | Except.ok entered =>
              if containsSub entered s.trim then
                (Except.ok (), r.2.1,
                 r.2.2 ++ [Event.clearValue, Event.setValue s.trim,
                           Event.getText])
              else
                (Except.error ("Failed to enter language text. Expected: "
                    ++ s ++ ", Got: " ++ entered),
                 r.2.1,
                 r.2.2 ++ [Event.clearValue, Event.setValue s.trim,
                           Event.getText])

/-- `DemoPage.enterReadingListName(listName)` (demoPage.js lines 638-661):
same validation guard, then resolve the name input, clear, type the trimmed
name, read it back (an empty or non-containing read-back fails), and store
the trimmed name on the page object. -/
def enterReadingListName (beh : Nat → Nat → Except String Elem)
    (ops : ElemOps) (listName : JSArg) (dur : Nat) (st : PageState) :
    Except String Unit × PageState × List Event :=
  if invalidTextInput listName then
    (Except.error "Invalid listName parameter: must be a non-empty string",
     st, [])
  else
    match listName with
    | JSArg.nonString =>
        (Except.error "Invalid listName parameter: must be a non-empty string",
         st, [])
    | JSArg.str s =>
      let r := findElement beh readingListNameLocator
        "Reading List Name Input" none dur st
      match r.1 with
      | Except.error m => (Except.error m, r.2.1, r.2.2)
      | Except.ok _ =>
        match ops.clearValue with
        | Except.error m =>
            (Except.error m, r.2.1, r.2.2 ++ [Event.clearValue])
        | Except.ok _ =>
          match ops.setValue s.trim with
          | Except.error m =>
              (Except.error m, r.2.1,
               r.2.2 ++ [Event.clearValue, Event.setValue s.trim])
          | Except.ok _ =>
            match ops.getText with
            | Except.error m =>
                (Except.error m, r.2.1,
                 r.2.2 ++ [Event.clearValue, Event.setValue s.trim,
                           Event.getText])
            | Except.ok entered =>
              if entered.isEmpty || !containsSub entered s.trim then
                (Except.error ("Failed to enter reading list name. Expected: "
                    ++ s),
                 r.2.1,
                 r.2.2 ++ [Event.clearValue, Event.setValue s.trim,
                           Event.getText])
              else
                (Except.ok (),
                 { r.2.1 with readingListName := some s.trim },
                 r.2.2 ++ [Event.clearValue, Event.setValue s.trim,
                           Event.getText])

/-- Recognise a network location attempt among the logged events. -/
def isLookup : Event → Bool
  | Event.lookup _ _ => true
  | _ => false

/-- Number of network location attempts in an event log. -/
def lookupCount (evs : List Event) : Nat := (evs.filter isLookup).length

/-- The sleep durations of an event log, in order. -/
def sleepsOf : List Event → List Nat
  | [] => []
  | Event.sleep ms :: evs => ms :: sleepsOf evs
  | _ :: evs => sleepsOf evs

/-- Recognise a cache write for a given key. -/
def isWriteFor (key : String) : Event → Bool
  | Event.cacheWrite k => k == key
  | _ => false

/-- Number of cache writes for a given key in an event log. -/
def writeCount (key : String) (evs : List Event) : Nat :=
  (evs.filter (isWriteFor key)).length

/-- An always-failing location oracle: every attempt throws. -/
def behAlwaysFail : Nat → Nat → Except String Elem :=
  fun _ _ => Except.error "not found"

/-- A location oracle that immediately yields the given handle. -/
def behOk (e : Elem) : Nat → Nat → Except String Elem :=
  fun _ _ => Except.ok e

/-- Condition used to refute the exhaustion clause of the spec: throws on
the first attempt, returns falsy afterwards. -/
def condThrowFirst : Nat → Except String Nat :=
  fun k => if k = 1 then Except.error "boom" else Except.ok 0

/-- JS truthiness of a number (0 is falsy). -/
def natTruthy (n : Nat) : Bool := n != 0

/-- The state update of a cache hit in `findElement`: the lookup counter
was already bumped on entry, the hit counter is bumped in the hit branch. -/
def bumpHit (st : PageState) : PageState :=
  { st with elementLookups := st.elementLookups + 1,
            cacheHits := st.cacheHits + 1 }

/-- Potential of a cache slot: 1 while the key is absent, 0 once present.
A call sequence can spend at most this much on writes to the slot. -/
def cost (st : PageState) (key : String) : Nat :=
  if st.elementCache.lookup key = none then 1 else 0

/-- A poll outcome that does not stop the wait loop of `smartWait`: a falsy
returned value or a thrown error. -/
def nonTruthyRes {α : Type} (truthy : α → Bool) : Except String α → Prop
  | Except.ok r => truthy r = false
  | Except.error _ => True

/-- The three-descriptor batch of the batch-atomicity scenario: the second
descriptor's lookup always fails, the first and third succeed at once. -/
def batchCex : List ElementConfig :=
  [⟨behOk ⟨1⟩, "s1", "d1", none, 0⟩,
   ⟨behAlwaysFail, "s2", "d2", none, 0⟩,
   ⟨behOk ⟨3⟩, "s3", "d3", none, 0⟩]

/-! ## Helper lemmas -/

theorem strAssoc (a b c : String) : a ++ b ++ c = a ++ (b ++ c) := by
  apply String.ext
  simp [String.data_append, List.append_assoc]

theorem findLoop_ok_cached (beh : Nat → Nat → Except String Elem)
    (desc key : String) (T dur : Nat) :
    ∀ fuel attempt st e st' evs,
      findLoop beh desc key T dur st attempt fuel = (Except.ok e, st', evs) →
      st'.elementCache.lookup key = some e := by
  intro fuel
  induction fuel with
  | zero =>
    intro attempt st e st' evs h
    simp [findLoop] at h
  | succ f ih =>
    intro attempt st e st' evs h
    rw [findLoop] at h
    split at h
    · simp only [Prod.mk.injEq, Except.ok.injEq] at h
      obtain ⟨he, hst, -⟩ := h
      subst he
      subst hst
      simp [List.lookup]
    · split at h
      · simp at h
      · simp only [Prod.mk.injEq] at h
        obtain ⟨h1, h2, -⟩ := h
        exact ih (attempt + 1) st e st' _ (by rw [← h1, ← h2])

theorem findElement_ok_cached (beh : Nat → Nat → Except String Elem)
    (sel desc : String) (t : Option Nat) (dur : Nat) (st st' : PageState)
    (e : Elem) (evs : List Event)
    (h : findElement beh sel desc t dur st = (Except.ok e, st', evs)) :
    st'.elementCache.lookup (cacheKey sel desc) = some e := by
  rw [findElement] at h
  split at h
  · next e0 heq =>
    simp only [Prod.mk.injEq, Except.ok.injEq] at h
    obtain ⟨he, hst, -⟩ := h
    subst he
    subst hst
    exact heq
  · exact findLoop_ok_cached beh desc (cacheKey sel desc) (actualTimeoutOf t)
      dur timeoutsRetryAttempts 1 _ e st' evs h

theorem findLoop_head_lookup (beh : Nat → Nat → Except String Elem)
    (desc key : String) (T dur : Nat) (st : PageState) (attempt f : Nat) :
    ∃ tl, (findLoop beh desc key T dur st attempt (f + 1)).2.2
      = Event.lookup attempt T :: tl := by
  rw [findLoop]
  split
  · exact ⟨[Event.cacheWrite key], rfl⟩
  · split
    · exact ⟨[Event.screenshot], rfl⟩
    · exact ⟨_, rfl⟩

theorem findLoop_error_state (beh : Nat → Nat → Except String Elem)
    (desc key : String) (T dur : Nat) :
    ∀ fuel attempt st msg st' evs,
      findLoop beh desc key T dur st attempt fuel
        = (Except.error msg, st', evs) →
      st' = st := by
  intro fuel
  induction fuel with
  | zero =>
    intro attempt st msg st' evs h
    rw [findLoop] at h
    simp only [Prod.mk.injEq] at h
    exact h.2.1.symm
  | succ f ih =>
    intro attempt st msg st' evs h
    rw [findLoop] at h
    split at h
    · simp at h
    · split at h
      · simp only [Prod.mk.injEq] at h
        exact h.2.1.symm
      · simp only [Prod.mk.injEq] at h
        obtain ⟨h1, h2, -⟩ := h
        exact ih (attempt + 1) st msg st' _ (by rw [← h1, ← h2])

theorem findElement_miss_fresh (beh : Nat → Nat → Except String Elem)
    (sel desc : String) (t : Option Nat) (dur : Nat) (st : PageState)
    (h : st.elementCache.lookup (cacheKey sel desc) = none) :
    ∃ tl, (findElement beh sel desc t dur st).2.2
      = Event.lookup 1 (actualTimeoutOf t) :: tl := by
  simp only [findElement, h]
  exact findLoop_head_lookup beh desc (cacheKey sel desc) (actualTimeoutOf t)
    dur _ 1 2

theorem collectResults_map_ok (es : List Elem) :
    collectResults (es.map Except.ok) = Except.ok es := by
  induction es with
  | nil => rfl
  | cons e es ih => simp [collectResults, ih]

theorem writeCount_append (key : String) (a b : List Event) :
    writeCount key (a ++ b) = writeCount key a + writeCount key b := by
  simp [writeCount, List.filter_append]

theorem findLoop_writes_other (beh : Nat → Nat → Except String Elem)
    (desc wkey key : String) (hk : wkey ≠ key) (T dur : Nat) :
    ∀ fuel attempt st,
    writeCount key (findLoop beh desc wkey T dur st attempt fuel).2.2 = 0
    ∧ ((findLoop beh desc wkey T dur st attempt fuel).2.1).elementCache.lookup
        key = st.elementCache.lookup key := by
  intro fuel
  induction fuel with
  | zero => intro attempt st; simp [findLoop, writeCount]
  | succ f ih =>
    intro attempt st
    rw [findLoop]
    split
    · have h1 : (wkey == key) = false := by simp [hk]
      have h2 : (key == wkey) = false := by
        simp only [beq_eq_false_iff_ne, ne_eq]
        exact fun h => hk h.symm
      simp [writeCount, isWriteFor, h1, List.lookup, h2]
    · split
      · simp [writeCount, isWriteFor]
      · have := ih (attempt + 1) st
        simp only [writeCount, isWriteFor, List.filter] at this ⊢
        simpa using this

theorem findLoop_writes_self (beh : Nat → Nat → Except String Elem)
    (desc wkey : String) (T dur : Nat) :
    ∀ fuel attempt st,
    writeCount wkey (findLoop beh desc wkey T dur st attempt fuel).2.2
      + cost (findLoop beh desc wkey T dur st attempt fuel).2.1 wkey ≤ 1 := by
  intro fuel
  induction fuel with
  | zero =>
    intro attempt st
    simp only [findLoop, writeCount, List.filter, cost]
    split <;> simp
  | succ f ih =>
    intro attempt st
    rw [findLoop]
    split
    · simp [writeCount, isWriteFor, cost, List.lookup]
    · split
      · simp only [writeCount, isWriteFor, cost, List.filter]
        split <;> simp
      · have := ih (attempt + 1) st
        simp only [writeCount, isWriteFor, List.filter, cost] at this ⊢
        simpa using this

theorem findElement_write_potential (beh : Nat → Nat → Except String Elem)
    (sel desc : String) (t : Option Nat) (dur : Nat) (st : PageState)
    (key : String) :
    writeCount key (findElement beh sel desc t dur st).2.2
      + cost (findElement beh sel desc t dur st).2.1 key ≤ cost st key := by
  simp only [findElement]
  cases hc : List.lookup (cacheKey sel desc) st.elementCache with
  | some e =>
    simp [hc, writeCount, cost]
  | none =>
    simp only [hc]
    by_cases hkey : cacheKey sel desc = key
    · subst hkey
      have hb := findLoop_writes_self beh desc (cacheKey sel desc)
        (actualTimeoutOf t) dur timeoutsRetryAttempts 1
        { st with elementLookups := st.elementLookups + 1 }
      have h1 : cost st (cacheKey sel desc) = 1 := by simp [cost, hc]
      omega
    · have ha := findLoop_writes_other beh desc (cacheKey sel desc) key hkey
        (actualTimeoutOf t) dur timeoutsRetryAttempts 1
        { st with elementLookups := st.elementLookups + 1 }
      have h1 : cost (findLoop beh desc (cacheKey sel desc) (actualTimeoutOf t)
          dur { st with elementLookups := st.elementLookups + 1 } 1
          timeoutsRetryAttempts).2.1 key = cost st key := by
        simp only [cost]
        rw [ha.2]
      omega

theorem runBatch_write_potential (key : String) : ∀ cfgs st,
    writeCount key (runBatch cfgs st).2.2
      + cost (runBatch cfgs st).2.1 key ≤ cost st key := by
  intro cfgs
  induction cfgs with
  | nil => intro st; simp [runBatch, writeCount]
  | cons c cs ih =>
    intro st
    rw [runBatch]
    dsimp only
    have h1 := findElement_write_potential c.beh c.selector c.description
      c.timeout c.dur st key
    have h2 := ih (findElement c.beh c.selector c.description c.timeout
      c.dur st).2.1
    rw [writeCount_append]
    omega

theorem findElement_error_cache (beh : Nat → Nat → Except String Elem)
    (sel desc : String) (t : Option Nat) (dur : Nat) (st : PageState)
    (msg : String)
    (h : (findElement beh sel desc t dur st).1 = Except.error msg) :
    ((findElement beh sel desc t dur st).2.1).elementCache
      = st.elementCache := by
  simp only [findElement] at h ⊢
  cases hc : List.lookup (cacheKey sel desc) st.elementCache with
  | some e =>
    simp only [hc] at h
    simp at h
  | none =>
    simp only [hc] at h ⊢
    rcases hfl : findLoop beh desc (cacheKey sel desc) (actualTimeoutOf t) dur
        { st with elementLookups := st.elementLookups + 1 } 1
        timeoutsRetryAttempts with ⟨r, st2, evs⟩
    rw [hfl] at h
    dsimp only at h ⊢
    have := findLoop_error_state beh desc (cacheKey sel desc)
      (actualTimeoutOf t) dur timeoutsRetryAttempts 1
      { st with elementLookups := st.elementLookups + 1 } msg st2 evs
      (by rw [hfl, h])
    rw [this]

theorem smartWaitLoop_exhaust {α : Type} (truthy : α → Bool)
    (cond : Nat → Except String α) (maxAttempts : Nat) :
    ∀ fuel attempt delay, attempt + fuel = maxAttempts + 1 → 1 ≤ fuel →
    (∀ k, attempt ≤ k → k < maxAttempts → nonTruthyRes truthy (cond k)) →
    (smartWaitLoop truthy cond maxAttempts attempt delay fuel).1 =
      (match cond maxAttempts with
       | Except.ok r =>
           if truthy r then Except.ok r
           else Except.error ("Condition not met after "
             ++ toString maxAttempts ++ " attempts")
       | Except.error msg => Except.error msg) := by
  intro fuel
  induction fuel with
  | zero => intro attempt delay hsum hpos; omega
  | succ f ih =>
    intro attempt delay hsum hpos hnt
    by_cases hf : f = 0
    · subst hf
      have hat : attempt = maxAttempts := by omega
      subst hat
      rw [smartWaitLoop]
      cases hcond : cond attempt with
      | ok r =>
        simp only [hcond]
        by_cases htr : truthy r
        · simp [htr]
        · simp [htr, smartWaitLoop]
      | error msg =>
        simp only [hcond]
        simp
    · have hlt : attempt < maxAttempts := by omega
      have hnta := hnt attempt le_rfl hlt
      rw [smartWaitLoop]
      cases hcond : cond attempt with
      | ok r =>
        rw [hcond] at hnta
        simp only [nonTruthyRes] at hnta
        simp only [hnta, if_neg Bool.false_ne_true]
        exact ih (attempt + 1) (delay * 2) (by omega) (by omega)
          (fun k hk1 hk2 => hnt k (by omega) hk2)
      | error msg =>
        have hne : ¬attempt = maxAttempts := by omega
        simp only [if_neg hne]
        exact ih (attempt + 1) (delay * 2) (by omega) (by omega)
          (fun k hk1 hk2 => hnt k (by omega) hk2)

/-! ## Claim theorems -/

/-- C1: for a descriptor not in the cache whose underlying lookup always
fails, `findElement` makes exactly 3 location attempts and then raises an
error carrying the descriptor's description and the message of the last
underlying error. -/
theorem resolve_retry_bound (beh : Nat → Nat → Except String Elem)
    (m : Nat → Nat → String) (sel desc : String) (t : Option Nat) (dur : Nat)
    (st : PageState)
    (hmiss : st.elementCache.lookup (cacheKey sel desc) = none)
    (hfail : ∀ k T, beh k T = Except.error (m k T)) :
    (findElement beh sel desc t dur st).1 =
      Except.error ("Failed to locate " ++ desc ++ " after 3 attempts: "
        ++ m 3 (actualTimeoutOf t))
    ∧ lookupCount (findElement beh sel desc t dur st).2.2 = 3 := by
  have hm : ({ st with elementLookups := st.elementLookups + 1 } :
      PageState).elementCache.lookup (cacheKey sel desc) = none := hmiss
  constructor
  · simp only [findElement, hm, findLoop, hfail, timeoutsRetryAttempts]
    norm_num
    simp only [strAssoc]
    rfl
  · simp [findElement, hm, findLoop, hfail, timeoutsRetryAttempts,
      lookupCount, isLookup]

/-- C1 witness: the always-failing oracle run from a fresh page hits the
retry bound with the expected message. -/
theorem resolve_retry_bound_witness :
    PageState.init.elementCache.lookup (cacheKey "sel" "desc") = none
    ∧ (∀ k T, behAlwaysFail k T = Except.error "not found")
    ∧ (findElement behAlwaysFail "sel" "desc" none 0 PageState.init).1 =
        Except.error "Failed to locate desc after 3 attempts: not found"
    ∧ lookupCount
        (findElement behAlwaysFail "sel" "desc" none 0
          PageState.init).2.2 = 3 := by
  refine ⟨rfl, fun k T => rfl, ?_, ?_⟩
  · have h := (resolve_retry_bound behAlwaysFail (fun _ _ => "not found")
      "sel" "desc" none 0 PageState.init rfl (fun k T => rfl)).1
    rw [h]
    rfl
  · exact (resolve_retry_bound behAlwaysFail (fun _ _ => "not found")
      "sel" "desc" none 0 PageState.init rfl (fun k T => rfl)).2

/-- C2 counterexample: in a 3-attempt run with every attempt failing, the
second inter-attempt sleep is 1000 ms, while the claimed schedule
`min(1000 * 2 ^ (attempt - 1), 5000)` demands 2000 ms before attempt 3. -/
theorem backoff_schedule_cex :
    sleepsOf (findElement behAlwaysFail "sel" "desc" none 0
        PageState.init).2.2 = [1000, 1000]
    ∧ min (1000 * 2 ^ (2 - 1)) 5000 = 2000
    ∧ (1000 : Nat) ≠ 2000 := by
  refine ⟨rfl, by norm_num, by norm_num⟩

/-- C2 amended: the sleep before each retry of `findElement` is the
constant `retryDelay` of 1000 ms, so a 3-attempt run with every attempt
failing sleeps exactly twice, 1000 ms each time. -/
theorem backoff_schedule (beh : Nat → Nat → Except String Elem)
    (m : Nat → Nat → String) (sel desc : String) (t : Option Nat) (dur : Nat)
    (st : PageState)
    (hmiss : st.elementCache.lookup (cacheKey sel desc) = none)
    (hfail : ∀ k T, beh k T = Except.error (m k T)) :
    sleepsOf (findElement beh sel desc t dur st).2.2
      = [timeoutsRetryDelay, timeoutsRetryDelay]
    ∧ timeoutsRetryDelay = 1000 := by
  have hm : ({ st with elementLookups := st.elementLookups + 1 } :
      PageState).elementCache.lookup (cacheKey sel desc) = none := hmiss
  refine ⟨?_, rfl⟩
  simp [findElement, hm, findLoop, hfail, timeoutsRetryAttempts, sleepsOf]

/-- C2 amended witness: the constant backoff at a concrete failing run. -/
theorem backoff_schedule_witness :
    PageState.init.elementCache.lookup (cacheKey "sel" "desc") = none
    ∧ sleepsOf (findElement behAlwaysFail "sel" "desc" none 0
        PageState.init).2.2 = [1000, 1000] := by
  refine ⟨rfl, ?_⟩
  exact (backoff_schedule behAlwaysFail (fun _ _ => "not found") "sel" "desc"
    none 0 PageState.init rfl (fun k T => rfl)).1

/-- C3: after a successful resolution, a second `findElement` with the
identical descriptor returns the same handle from the cache with no
external event and the hit counter incremented; after `clearCache` the
same descriptor issues a fresh network lookup. -/
theorem resolve_cache_idempotent
    (beh beh2 beh3 : Nat → Nat → Except String Elem)
    (sel desc : String) (t t2 t3 : Option Nat) (dur dur2 dur3 : Nat)
    (st st1 : PageState) (e : Elem) (evs1 : List Event)
    (h1 : findElement beh sel desc t dur st = (Except.ok e, st1, evs1)) :
    findElement beh2 sel desc t2 dur2 st1 = (Except.ok e, bumpHit st1, [])
    ∧ (∃ tl, (findElement beh3 sel desc t3 dur3
          (clearCache (bumpHit st1))).2.2
        = Event.lookup 1 (actualTimeoutOf t3) :: tl) := by
  have hc := findElement_ok_cached beh sel desc t dur st st1 e evs1 h1
  constructor
  · simp only [findElement, hc, bumpHit]
  · exact findElement_miss_fresh beh3 sel desc t3 dur3 _ rfl

/-- C3 witness: a concrete cached state serves the second call without any
remote traffic. -/
theorem resolve_cache_idempotent_witness :
    findElement behAlwaysFail "s" "d" none 0
        { elementCache := [("s_d", ⟨5⟩)], elementLookups := 1, cacheHits := 0,
          totalWaitTime := 0, readingListName := none }
      = (Except.ok ⟨5⟩,
         { elementCache := [("s_d", ⟨5⟩)], elementLookups := 2, cacheHits := 1,
           totalWaitTime := 0, readingListName := none }, []) := by
  have h := (resolve_cache_idempotent (behOk ⟨5⟩) behAlwaysFail behAlwaysFail
    "s" "d" none none none 0 0 0 PageState.init
    { elementCache := [("s_d", ⟨5⟩)], elementLookups := 1, cacheHits := 0,
      totalWaitTime := 0, readingListName := none }
    ⟨5⟩ [Event.lookup 1 15000, Event.cacheWrite "s_d"] rfl).1
  rw [h]
  rfl

/-- C4: `findElementsParallel` joins individually successful resolutions
into the ordered handle list; in the batch where the second of three
descriptors always fails, the call raises that descriptor's resolution
error while the cache entries of the successful first and third
descriptors remain populated. -/
theorem parallel_order_atomicity :
    (∀ cfgs st es, (runBatch cfgs st).1 = es.map Except.ok →
        (findElementsParallel cfgs st).1 = Except.ok es)
    ∧ (findElementsParallel batchCex PageState.init).1
        = Except.error "Failed to locate d2 after 3 attempts: not found"
    ∧ ((findElementsParallel batchCex PageState.init).2.1).elementCache.lookup
        (cacheKey "s1" "d1") = some ⟨1⟩
    ∧ ((findElementsParallel batchCex PageState.init).2.1).elementCache.lookup
        (cacheKey "s3" "d3") = some ⟨3⟩ := by
  refine ⟨?_, rfl, rfl, rfl⟩
  intro cfgs st es h
  show collectResults (runBatch cfgs st).1 = Except.ok es
  rw [h]
  exact collectResults_map_ok es

/-- C4 witness: a singleton batch whose resolution succeeds yields the
ordered result list. -/
theorem parallel_order_atomicity_witness :
    (runBatch [⟨behOk ⟨2⟩, "x", "y", none, 0⟩] PageState.init).1
      = [⟨2⟩].map Except.ok
    ∧ (findElementsParallel [⟨behOk ⟨2⟩, "x", "y", none, 0⟩]
        PageState.init).1 = Except.ok [⟨2⟩] := by
  refine ⟨rfl, ?_⟩
  exact parallel_order_atomicity.1 [⟨behOk ⟨2⟩, "x", "y", none, 0⟩]
    PageState.init [⟨2⟩] rfl

/-- C5: a failing `findElement` leaves the cache exactly as it was, and any
sequence of `findElement` calls starting from a state where a key is
absent performs at most one cache write for that key. -/
theorem cache_write_discipline :
    (∀ beh sel desc t dur st msg,
        (findElement beh sel desc t dur st).1 = Except.error msg →
        ((findElement beh sel desc t dur st).2.1).elementCache
          = st.elementCache)
    ∧ (∀ key cfgs st, st.elementCache.lookup key = none →
        writeCount key (runBatch cfgs st).2.2 ≤ 1) := by
  constructor
  · exact fun beh sel desc t dur st msg h =>
      findElement_error_cache beh sel desc t dur st msg h
  · intro key cfgs st h
    have hp := runBatch_write_potential key cfgs st
    have hc : cost st key = 1 := by simp [cost, h]
    omega

/-- C5 witness: a concrete failing resolution writes nothing, and a
duplicate-descriptor sequence writes its key at most once. -/
theorem cache_write_discipline_witness :
    ((findElement behAlwaysFail "s" "d" none 0
        PageState.init).2.1).elementCache = PageState.init.elementCache
    ∧ writeCount (cacheKey "p" "q")
        (runBatch [⟨behOk ⟨9⟩, "p", "q", none, 0⟩,
                   ⟨behOk ⟨9⟩, "p", "q", none, 0⟩] PageState.init).2.2 ≤ 1 := by
  constructor
  · exact cache_write_discipline.1 behAlwaysFail "s" "d" none 0 PageState.init
      "Failed to locate d after 3 attempts: not found" rfl
  · exact cache_write_discipline.2 (cacheKey "p" "q")
      [⟨behOk ⟨9⟩, "p", "q", none, 0⟩, ⟨behOk ⟨9⟩, "p", "q", none, 0⟩]
      PageState.init rfl

/-- C6 counterexample: the distinct descriptors `("a", "b_c")` and
`("a_b", "c")` share the cache key `"a_b_c"`, and resolving the second
after caching the first returns the first's handle from the cache (the
oracle of the second call always fails, and no event is emitted, so the
handle can only come from the other descriptor's cache entry). -/
theorem cache_key_injective_cex :
    ("a", "b_c") ≠ (("a_b", "c") : String × String)
    ∧ cacheKey "a" "b_c" = cacheKey "a_b" "c"
    ∧ (findElement behAlwaysFail "a_b" "c" none 0
         (findElement (behOk ⟨7⟩) "a" "b_c" none 0 PageState.init).2.1).1
        = Except.ok ⟨7⟩
    ∧ (findElement behAlwaysFail "a_b" "c" none 0
         (findElement (behOk ⟨7⟩) "a" "b_c" none 0 PageState.init).2.1).2.2
        = [] := by
  refine ⟨by decide, rfl, rfl, rfl⟩

/-- C6 amended: cache keys are the concatenation
`selector ++ "_" ++ description`, which is not injective; whenever two
descriptors' concatenated keys differ, a cached entry for one never
produces a cache hit for the other — the other descriptor proceeds to a
fresh network lookup. -/
theorem cache_key_distinct_no_cross (beh : Nat → Nat → Except String Elem)
    (s1 d1 s2 d2 : String) (e : Elem) (t : Option Nat) (dur : Nat)
    (hne : cacheKey s1 d1 ≠ cacheKey s2 d2) :
    ∃ tl, (findElement beh s2 d2 t dur
        { PageState.init with elementCache := [(cacheKey s1 d1, e)] }).2.2
      = Event.lookup 1 (actualTimeoutOf t) :: tl := by
  apply findElement_miss_fresh
  simp only [List.lookup]
  have hb : (cacheKey s2 d2 == cacheKey s1 d1) = false := by
    simp only [beq_eq_false_iff_ne, ne_eq]
    exact fun h => hne h.symm
  rw [hb]

/-- C6 amended witness: distinct keys at concrete descriptors miss the
cache and go to the network. -/
theorem cache_key_distinct_no_cross_witness :
    cacheKey "a" "b" ≠ cacheKey "c" "d"
    ∧ ∃ tl, (findElement behAlwaysFail "c" "d" none 0
        { PageState.init with elementCache := [(cacheKey "a" "b", ⟨1⟩)] }).2.2
      = Event.lookup 1 15000 :: tl := by
  refine ⟨by decide, ?_⟩
  exact cache_key_distinct_no_cross behAlwaysFail "a" "b" "c" "d" ⟨1⟩ none 0
    (by decide)

/-- C7 counterexample: the predicate throws "boom" on attempt 1 and returns
falsy afterwards, so the claim demands that exhaustion re-raises "boom";
`smartWait` instead raises the generic condition-timeout error. -/
theorem awaitCondition_rethrow_cex :
    (smartWait natTruthy condThrowFirst 5 500).1
      = Except.error "Condition not met after 5 attempts"
    ∧ condThrowFirst 1 = Except.error "boom"
    ∧ ("Condition not met after 5 attempts" : String) ≠ "boom" := by
  refine ⟨rfl, rfl, by decide⟩

/-- C7 amended: when `smartWait` exhausts all attempts without a truthy
result, it re-raises the predicate's error only if the predicate threw on
the final attempt; if the final attempt returned falsy, it raises the
generic condition-timeout error even when earlier attempts threw. -/
theorem awaitCondition_exhaustion {α : Type} (truthy : α → Bool)
    (cond : Nat → Except String α) (maxAttempts initialDelay : Nat)
    (hpos : 1 ≤ maxAttempts)
    (hnt : ∀ k, 1 ≤ k → k < maxAttempts → nonTruthyRes truthy (cond k)) :
    (∀ msg, cond maxAttempts = Except.error msg →
        (smartWait truthy cond maxAttempts initialDelay).1
          = Except.error msg)
    ∧ (∀ r, cond maxAttempts = Except.ok r → truthy r = false →
        (smartWait truthy cond maxAttempts initialDelay).1
          = Except.error ("Condition not met after " ++ toString maxAttempts
              ++ " attempts")) := by
  have h := smartWaitLoop_exhaust truthy cond maxAttempts maxAttempts 1
    initialDelay (by omega) hpos (fun k hk1 hk2 => hnt k hk1 hk2)
  constructor
  · intro msg hmsg
    rw [smartWait, h, hmsg]
  · intro r hr htr
    rw [smartWait, h, hr]
    simp [htr]

/-- C7 amended witness: the throw-then-falsy predicate ends in the generic
condition-timeout error. -/
theorem awaitCondition_exhaustion_witness :
    (∀ k, 1 ≤ k → k < 5 → nonTruthyRes natTruthy (condThrowFirst k))
    ∧ condThrowFirst 5 = Except.ok 0
    ∧ (smartWait natTruthy condThrowFirst 5 500).1
        = Except.error "Condition not met after 5 attempts" := by
  refine ⟨?_, rfl, ?_⟩
  · intro k hk1 hk2
    interval_cases k <;> simp [condThrowFirst, nonTruthyRes, natTruthy]
  · have h := (awaitCondition_exhaustion natTruthy condThrowFirst 5 500
      (by omega) (by
        intro k hk1 hk2
        interval_cases k <;> simp [condThrowFirst, nonTruthyRes, natTruthy])).2
      0 rfl rfl
    rw [h]
    rfl

/-- C8: `smartWait` returns the predicate's result on the first truthy
attempt; with falsy results on attempts 1 and 2 and a truthy result on
attempt 3, exactly two sleeps occur, of the initial delay and then its
double. -/
theorem awaitCondition_first_truthy {α : Type} (truthy : α → Bool)
    (cond : Nat → Except String α) (maxAttempts initialDelay : Nat)
    (r1 r2 r3 : α) (hmax : 3 ≤ maxAttempts)
    (h1 : cond 1 = Except.ok r1) (ht1 : truthy r1 = false)
    (h2 : cond 2 = Except.ok r2) (ht2 : truthy r2 = false)
    (h3 : cond 3 = Except.ok r3) (ht3 : truthy r3 = true) :
    smartWait truthy cond maxAttempts initialDelay
      = (Except.ok r3,
         [Event.sleep initialDelay, Event.sleep (initialDelay * 2)]) := by
  obtain ⟨k, rfl⟩ : ∃ k, maxAttempts = k + 3 := ⟨maxAttempts - 3, by omega⟩
  show smartWaitLoop truthy cond (k + 3) 1 initialDelay (k + 2 + 1) = _
  rw [smartWaitLoop]
  simp only [h1, ht1, if_neg Bool.false_ne_true]
  show (Prod.fst (smartWaitLoop truthy cond (k + 3) 2 (initialDelay * 2)
      (k + 1 + 1)), _) = _
  rw [smartWaitLoop]
  simp only [h2, ht2, if_neg Bool.false_ne_true]
  show (Prod.fst (Prod.fst (smartWaitLoop truthy cond (k + 3) 3
      (initialDelay * 2 * 2) (k + 0 + 1)), _), _) = _
  rw [smartWaitLoop]
  simp only [h3, ht3, if_pos rfl]
  rfl

/-- C8 witness: the default parameters with a predicate that turns truthy
on attempt 3 sleep 500 ms and then 1000 ms. -/
theorem awaitCondition_first_truthy_witness :
    smartWait natTruthy (fun k => if 3 ≤ k then Except.ok 1 else Except.ok 0)
      5 500 = (Except.ok 1, [Event.sleep 500, Event.sleep 1000]) := by
  have h := awaitCondition_first_truthy natTruthy
    (fun k => if 3 ≤ k then Except.ok 1 else Except.ok 0) 5 500 0 0 1
    (by omega) rfl rfl rfl rfl rfl rfl
  rw [h]

/-- C9: for every argument that is empty, whitespace-only, or not a string,
`enterLanguageInSearchBox` and `enterReadingListName` raise the invalid-
argument error before any remote interaction: the state is untouched and
no event is emitted. -/
theorem setValue_input_validation (beh : Nat → Nat → Except String Elem)
    (ops : ElemOps) (arg : JSArg) (dur : Nat) (st : PageState)
    (h : invalidTextInput arg = true) :
    enterLanguageInSearchBox beh ops arg dur st
      = (Except.error "Invalid language parameter: must be a non-empty string",
         st, [])
    ∧ enterReadingListName beh ops arg dur st
      = (Except.error "Invalid listName parameter: must be a non-empty string",
         st, []) := by
  constructor
  · rw [enterLanguageInSearchBox.eq_def, if_pos h]
  · rw [enterReadingListName.eq_def, if_pos h]

/-- C9 witness: the empty string is rejected with no effect. -/
theorem setValue_input_validation_witness :
    invalidTextInput (JSArg.str "") = true
    ∧ enterLanguageInSearchBox behAlwaysFail
        ⟨Except.ok (), fun _ => Except.ok (), Except.ok ""⟩
        (JSArg.str "") 0 PageState.init
      = (Except.error "Invalid language parameter: must be a non-empty string",
         PageState.init, []) := by
  refine ⟨by decide, ?_⟩
  exact (setValue_input_validation behAlwaysFail
    ⟨Except.ok (), fun _ => Except.ok (), Except.ok ""⟩
    (JSArg.str "") 0 PageState.init (by decide)).1

/-- C10: a timeout argument of 0 (JS-falsy) is treated exactly like an
omitted timeout — `findElement` behaves identically and the effective
timeout is the 15000 ms default. -/
theorem resolve_zero_timeout_default (beh : Nat → Nat → Except String Elem)
    (sel desc : String) (dur : Nat) (st : PageState) :
    findElement beh sel desc (some 0) dur st
      = findElement beh sel desc none dur st
    ∧ actualTimeoutOf (some 0) = 15000 ∧ actualTimeoutOf none = 15000 := by
  refine ⟨?_, rfl, rfl⟩
  simp [findElement, actualTimeoutOf]

end AppAutomation
